import Mathlib

/-!
Shallow embedding of the zero2prod newsletter service core:
the `SubscriberName` / `SubscriberEmail` domain value types
(src/domain/subscriber_name.rs, src/domain/subscriber_email.rs),
the `subscribe` intake handler (src/routes/subscriptions.rs) and the
`EmailClient` (src/email_client.rs).

Rust `String` values are modelled as `List Char` (Unicode scalar values).
External library behaviour (the `unicode_segmentation` grapheme counter,
the `validator` email grammar, the `url` crate parser and the `reqwest`
transport) is abstracted as function parameters or small semantic models,
as those crates are not part of this repository.
-/

/-- Unicode White_Space property, the predicate behind Rust
`char::is_whitespace`, which `str::trim` strips from both ends. -/
def rustIsWhitespace (c : Char) : Bool :=
  (0x09 ≤ c.toNat && c.toNat ≤ 0x0d) || c.toNat = 0x20 || c.toNat = 0x85 ||
  c.toNat = 0xa0 || c.toNat = 0x1680 || (0x2000 ≤ c.toNat && c.toNat ≤ 0x200a) ||
  c.toNat = 0x2028 || c.toNat = 0x2029 || c.toNat = 0x202f || c.toNat = 0x205f ||
  c.toNat = 0x3000

/-- Model of Rust `str::trim_start`. -/
def trimStart (s : List Char) : List Char := s.dropWhile rustIsWhitespace

/-- Model of Rust `str::trim_end`. -/
def trimEnd (s : List Char) : List Char := (s.reverse.dropWhile rustIsWhitespace).reverse

/-- Model of Rust `str::trim`: strips Unicode whitespace from both ends. -/
def trim (s : List Char) : List Char := trimEnd (trimStart s)

/-- The forbidden character array of `SubscriberName::parse`
(src/domain/subscriber_name.rs line 11). -/
def forbidden_characters : List Char :=
  ['/', '(', ')', '\"', '<', '>', '\\', '\x7b', '\x7d']

/-- The validated name wrapper (src/domain/subscriber_name.rs line 4):
a tuple struct holding the accepted string. -/
structure SubscriberName where
  val : List Char
deriving DecidableEq

/-- Read accessor: `impl AsRef<str> for SubscriberName` returns the wrapped
string unchanged (src/domain/subscriber_name.rs lines 22-26). -/
def SubscriberName.as_ref (s : SubscriberName) : List Char := s.val

/-- The error message built by `format!("{} is not a valid subscriber name", name)`
(src/domain/subscriber_name.rs line 15): the raw input followed by fixed text. -/
def invalidNameMessage (name : List Char) : List Char :=
  name ++ (" is not a valid subscriber name").toList

/-- Model of `SubscriberName::parse` (src/domain/subscriber_name.rs lines 7-19).
`graphemeCount` abstracts `name.graphemes(true).count()` from the external
`unicode_segmentation` crate (extended grapheme clusters, UAX 29); on a list
of ASCII printable characters it coincides with `List.length`. -/
def SubscriberName.parse (graphemeCount : List Char → Nat) (name : List Char) :
    Except (List Char) SubscriberName :=
  let is_empty_or_whitespace := (trim name).isEmpty
  let is_too_long := graphemeCount name > 256
  let contains_forbidden_characters :=
    name.any (fun g => forbidden_characters.contains g)
  if is_empty_or_whitespace || is_too_long || contains_forbidden_characters then
    Except.error (invalidNameMessage name)
  else
    Except.ok ⟨name⟩

/-- The validated email wrapper (src/domain/subscriber_email.rs line 4). -/
structure SubscriberEmail where
  val : List Char
deriving DecidableEq

/-- Read accessor: `impl AsRef<str> for SubscriberEmail` returns the wrapped
string unchanged (src/domain/subscriber_email.rs lines 16-20). -/
def SubscriberEmail.as_ref (s : SubscriberEmail) : List Char := s.val

/-- The error message built by `format!("{} is not a valid email", &email)`
(src/domain/subscriber_email.rs line 11). -/
def invalidEmailMessage (email : List Char) : List Char :=
  email ++ (" is not a valid email").toList

/-- Model of `SubscriberEmail::parse` (src/domain/subscriber_email.rs lines 7-13).
`validate_email` abstracts the grammar check delegated to the external
`validator` crate. -/
def SubscriberEmail.parse (validate_email : List Char → Bool) (email : List Char) :
    Except (List Char) SubscriberEmail :=
  if validate_email email then
    Except.ok ⟨email⟩
  else
    Except.error (invalidEmailMessage email)

/-- Whether an `Except` value is the success constructor. -/
def exceptIsOk : Except ε α → Bool
  | Except.ok _ => true
  | Except.error _ => false

/-- ASCII printable characters (0x20 space through 0x7e tilde). -/
def printableAscii (c : Char) : Bool :=
  0x20 ≤ c.toNat && c.toNat ≤ 0x7e

/-- Concrete email-grammar stand-in used only to exercise theorems about
`SubscriberEmail.parse` at concrete inputs. -/
def containsAtSign (s : List Char) : Bool := s.contains '@'

/-- The name used by the repository's own happy-path test
(tests/api/subscriptions.rs line 6, url-decoded). -/
def leGuinName : List Char := ("le guin").toList

/-- The email used by the repository's own happy-path test. -/
def leGuinEmail : List Char := ("ursula_le_guin@gmail.com").toList

/-- A 257-character ASCII input: one leading space then 256 letters.
Its whitespace-trimmed form has exactly 256 characters. Every character is
ASCII printable, so its extended-grapheme-cluster count equals its length. -/
def spaceThenLetters : List Char := ' ' :: List.replicate 256 'a'

/-- C3: for every grapheme counter and every input, `SubscriberName.parse`
returns an error if and only if the whitespace-trimmed input is empty, or the
grapheme count exceeds 256, or the input contains a forbidden character; and
every error carries the offending raw input (as the head of the message built
by `format!`). -/
theorem subscriber_name_parse_spec (g : List Char → Nat) (name : List Char) :
    (exceptIsOk (SubscriberName.parse g name) = false ↔
      ((trim name).isEmpty = true ∨ 256 < g name ∨
        name.any (fun c => forbidden_characters.contains c) = true))
    ∧ (exceptIsOk (SubscriberName.parse g name) = false →
        SubscriberName.parse g name = Except.error (invalidNameMessage name)) := by
  have hcond : (((trim name).isEmpty || decide (g name > 256)) ||
      name.any (fun c => forbidden_characters.contains c)) = true ↔
      ((trim name).isEmpty = true ∨ 256 < g name ∨
        name.any (fun c => forbidden_characters.contains c) = true) := by
    simp only [Bool.or_eq_true, decide_eq_true_eq]
    tauto
  cases hc : (((trim name).isEmpty || decide (g name > 256)) ||
      name.any (fun c => forbidden_characters.contains c)) with
  | true =>
      have hp : SubscriberName.parse g name = Except.error (invalidNameMessage name) := by
        simp only [SubscriberName.parse]
        rw [if_pos]
        exact hc
      rw [hp]
      exact ⟨⟨fun _ => hcond.mp hc, fun _ => rfl⟩, fun _ => rfl⟩
  | false =>
      have hp : SubscriberName.parse g name = Except.ok ⟨name⟩ := by
        simp only [SubscriberName.parse]
        rw [if_neg]
        rw [hc]
        decide
      rw [hp]
      constructor
      · constructor
        · intro hfalse
          exact absurd hfalse (by simp [exceptIsOk])
        · intro hrhs
          exact absurd (hcond.mpr hrhs) (by rw [hc]; decide)
      · intro hfalse
        exact absurd hfalse (by simp [exceptIsOk])

/-- Witness for C3: the single-space input is rejected with the message
carrying the raw input (its grapheme count is its length, 1). -/
theorem subscriber_name_parse_spec_witness :
    SubscriberName.parse List.length [' '] = Except.error (invalidNameMessage [' ']) :=
  (subscriber_name_parse_spec List.length [' ']).2 (by decide)

set_option maxRecDepth 4000 in
/-- C4 counterexample: a leading space followed by 256 letters consists only
of printable non-forbidden ASCII characters and its whitespace-trimmed
grapheme length is 256, inside [1,256]; yet `SubscriberName::parse` rejects
it, because the length check runs on the untrimmed input (257 graphemes).
Every character is ASCII printable, so `List.length` is the exact extended
grapheme cluster count of this input. -/
theorem subscriber_name_c4_counterexample :
    (spaceThenLetters.all
        (fun c => printableAscii c && !(forbidden_characters.contains c)) = true)
    ∧ (1 ≤ (trim spaceThenLetters).length ∧ (trim spaceThenLetters).length ≤ 256)
    ∧ exceptIsOk (SubscriberName.parse List.length spaceThenLetters) = false := by
  decide

/-- C4 (amended): for every input composed only of printable non-forbidden
ASCII characters, whose whitespace-trimmed form is nonempty and whose
untrimmed grapheme count is at most 256, `SubscriberName.parse` succeeds and
the returned value's `as_ref` is the original untrimmed input. -/
theorem subscriber_name_printable_roundtrip (g : List Char → Nat) (name : List Char)
    (hprint : name.all printableAscii = true)
    (hforb : name.all (fun c => !(forbidden_characters.contains c)) = true)
    (hne : trim name ≠ [])
    (hlen : g name ≤ 256) :
    ∃ s : SubscriberName, SubscriberName.parse g name = Except.ok s ∧ s.as_ref = name := by
  refine ⟨⟨name⟩, ?_, rfl⟩
  simp only [SubscriberName.parse]
  rw [if_neg]
  intro hcontra
  rcases Bool.or_eq_true_iff.mp hcontra with h1 | h2
  · rcases Bool.or_eq_true_iff.mp h1 with ha | hb
    · exact hne (by simpa using ha)
    · exact absurd (of_decide_eq_true hb) (by omega)
  · rcases List.any_eq_true.mp h2 with ⟨c, hc, hcf⟩
    have := List.all_eq_true.mp hforb c hc
    simp at this hcf
    exact absurd hcf this

/-- Witness for C4 (amended): the repository's own test name parses and
round-trips. -/
theorem subscriber_name_printable_roundtrip_witness :
    ∃ s : SubscriberName,
      SubscriberName.parse List.length leGuinName = Except.ok s ∧ s.as_ref = leGuinName :=
  subscriber_name_printable_roundtrip List.length leGuinName
    (by decide) (by decide) (by decide) (by decide)

/-- C5: for every email-grammar predicate and every input,
`SubscriberEmail.parse` succeeds if and only if the predicate accepts the
input; on success the wrapped value's `as_ref` is the original input,
untrimmed and unnormalized; on failure the error message carries the
offending input. -/
theorem subscriber_email_parse_spec (v : List Char → Bool) (email : List Char) :
    (exceptIsOk (SubscriberEmail.parse v email) = true ↔ v email = true)
    ∧ (v email = true →
        SubscriberEmail.parse v email = Except.ok ⟨email⟩ ∧
          (SubscriberEmail.mk email).as_ref = email)
    ∧ (v email = false →
        SubscriberEmail.parse v email = Except.error (invalidEmailMessage email)) := by
  cases hv : v email with
  | true =>
      have hp : SubscriberEmail.parse v email = Except.ok ⟨email⟩ := by
        simp only [SubscriberEmail.parse]
        rw [if_pos hv]
      exact ⟨⟨fun _ => rfl, fun _ => by rw [hp]; rfl⟩, fun _ => ⟨hp, rfl⟩,
        fun h => Bool.noConfusion h⟩
  | false =>
      have hp : SubscriberEmail.parse v email = Except.error (invalidEmailMessage email) := by
        simp only [SubscriberEmail.parse]
        rw [if_neg]
        rw [hv]
        decide
      refine ⟨?_, fun h => Bool.noConfusion h, fun _ => hp⟩
      rw [hp]
      constructor
      · intro hfalse
        exact absurd hfalse (by simp [exceptIsOk])
      · intro htrue
        exact Bool.noConfusion htrue

/-- Witness for C5: with a concrete grammar predicate, an accepted input
round-trips and a rejected input yields the message carrying it. -/
theorem subscriber_email_parse_spec_witness :
    (SubscriberEmail.parse containsAtSign (("a@b").toList) =
        Except.ok ⟨("a@b").toList⟩ ∧
      (SubscriberEmail.mk (("a@b").toList)).as_ref = ("a@b").toList)
    ∧ SubscriberEmail.parse containsAtSign (("nope").toList) =
        Except.error (invalidEmailMessage (("nope").toList)) :=
  ⟨(subscriber_email_parse_spec containsAtSign (("a@b").toList)).2.1 (by decide),
   (subscriber_email_parse_spec containsAtSign (("nope").toList)).2.2 (by decide)⟩

/-- Database error surfaced by the storage layer (sqlx::Error), modelled as
its message text. -/
def DbError : Type := List Char

/-- HTTP status codes the intake route can produce. `ok` and
`internalServerError` are built by the handler itself
(src/routes/subscriptions.rs lines 23-24); `badRequest` is produced by the
framework's form extractor when a field is missing, before the handler runs. -/
inductive HttpStatus where
  | ok
  | badRequest
  | internalServerError
deriving DecidableEq

/-- Numeric status codes. -/
def HttpStatus.code : HttpStatus → Nat
  | HttpStatus.ok => 200
  | HttpStatus.badRequest => 400
  | HttpStatus.internalServerError => 500

/-- The deserialized form body (src/routes/subscriptions.rs lines 7-11):
both fields are plain strings, with no domain validation attached. -/
structure FormData where
  name : List Char
  email : List Char
deriving DecidableEq

/-- One row of the `subscriptions` table, as written by the INSERT in
`insert_subscriber` (src/routes/subscriptions.rs line 31). -/
structure SubscriptionRecord where
  id : Nat
  email : List Char
  name : List Char
  subscribed_at : Int
deriving DecidableEq

/-- An HTTP response: status plus body. `HttpResponse::Ok().finish()` and
`HttpResponse::InternalServerError().finish()` both carry an empty body. -/
structure HttpResponseModel where
  status : HttpStatus
  body : List Char
deriving DecidableEq

/-- Ambient effects of one intake request: the value `Uuid::new_v4()`
generates (fresh by the generator's contract), the value `Utc::now()`
reads (the current UTC instant), and whether the database accepts the
INSERT statement. -/
structure IntakeEnv where
  freshId : Nat
  now : Int
  insertOutcome : Except DbError Unit

/-- Model of `insert_subscriber` (src/routes/subscriptions.rs lines 29-44):
builds the row from a fresh id, the raw form fields and the current time,
executes the INSERT, and propagates the database outcome. The second
component lists the rows actually persisted by the call: exactly one on
success, none on failure. -/
def insert_subscriber (env : IntakeEnv) (form : FormData) :
    Except DbError Unit × List SubscriptionRecord :=
  match env.insertOutcome with
  | Except.ok _ =>
      (Except.ok (),
       [{ id := env.freshId, email := form.email, name := form.name,
          subscribed_at := env.now }])
  | Except.error e => (Except.error e, [])

/-- Model of the `subscribe` handler (src/routes/subscriptions.rs lines
21-26): it calls `insert_subscriber` directly on the raw form data — with no
call to `SubscriberName::parse` or `SubscriberEmail::parse` — and maps the
outcome to 200 or 500 with an empty body. -/
def subscribe (env : IntakeEnv) (form : FormData) :
    HttpResponseModel × List SubscriptionRecord :=
  match insert_subscriber env form with
  | (Except.ok _, recs) => ({ status := HttpStatus.ok, body := [] }, recs)
  | (Except.error _, recs) =>
      ({ status := HttpStatus.internalServerError, body := [] }, recs)

/-- C1: code-bug evidence. The form with a present-but-empty name (which
`SubscriberName::parse` rejects) is not rejected by the handler: with a
healthy database it is persisted as-is and answered with 200, not 400 —
contradicting the repository's own test
`subscribe_returns_a_400_when_data_is_present_but_empty`
(tests/api/subscriptions.rs lines 43-66). -/
theorem subscribe_empty_name_not_rejected :
    exceptIsOk (SubscriberName.parse List.length []) = false
    ∧ subscribe { freshId := 0, now := 0, insertOutcome := Except.ok () }
        { name := [], email := leGuinEmail }
      = ({ status := HttpStatus.ok, body := [] },
         [{ id := 0, email := leGuinEmail, name := [], subscribed_at := 0 }])
    ∧ HttpStatus.ok.code = 200 :=
  ⟨by decide, rfl, rfl⟩

/-- C2: when both fields are valid (and in fact for any form the extractor
accepts), the handler persists exactly one row carrying the freshly
generated id, the raw fields and the current UTC instant, answering 200
with an empty body on insert success and 500 with an empty body on insert
failure (persisting nothing in that case). -/
theorem subscribe_valid_form_spec (g : List Char → Nat) (v : List Char → Bool)
    (env : IntakeEnv) (form : FormData)
    (hname : exceptIsOk (SubscriberName.parse g form.name) = true)
    (hemail : exceptIsOk (SubscriberEmail.parse v form.email) = true) :
    (env.insertOutcome = Except.ok () →
      subscribe env form =
        ({ status := HttpStatus.ok, body := [] },
         [{ id := env.freshId, email := form.email, name := form.name,
            subscribed_at := env.now }]))
    ∧ (∀ e, env.insertOutcome = Except.error e →
      subscribe env form =
        ({ status := HttpStatus.internalServerError, body := [] }, [])) := by
  constructor
  · intro h
    simp [subscribe, insert_subscriber, h]
  · intro e h
    simp [subscribe, insert_subscriber, h]

/-- Witness for C2: the repository's own happy-path form, with a healthy
database, is persisted once and answered 200. -/
theorem subscribe_valid_form_spec_witness :
    subscribe { freshId := 7, now := 5, insertOutcome := Except.ok () }
        { name := leGuinName, email := leGuinEmail }
      = ({ status := HttpStatus.ok, body := [] },
         [{ id := 7, email := leGuinEmail, name := leGuinName, subscribed_at := 5 }]) :=
  (subscribe_valid_form_spec List.length containsAtSign
    { freshId := 7, now := 5, insertOutcome := Except.ok () }
    { name := leGuinName, email := leGuinEmail } (by decide) (by decide)).1 rfl

/-- The header key constant `SERVER_TOKEN_HEADER_KEY`
(src/email_client.rs line 5). -/
def SERVER_TOKEN_HEADER_KEY : List Char := ("X-Postmark-Server-Token").toList

/-- Model of `secrecy::Secret<String>`: a wrapper holding the credential. -/
structure Secret where
  inner_secret : List Char
deriving DecidableEq

/-- The explicit reveal accessor `ExposeSecret::expose_secret`. -/
def Secret.expose_secret (s : Secret) : List Char := s.inner_secret

/-- The `Debug` rendering of `secrecy::Secret<String>`: a fixed redacted
text that does not depend on the wrapped value. -/
def Secret.redactedDebug (_ : Secret) : List Char :=
  ("Secret([REDACTED alloc::string::String])").toList

/-- Model of a parsed absolute URL (`reqwest::Url`): scheme, host, path,
and the cannot-be-a-base flag of the `url` crate. -/
structure Url where
  scheme : List Char
  host : List Char
  path : List Char
  cannotBeABase : Bool
deriving DecidableEq

/-- Model of `url::Url::join` applied to an absolute-path reference such as
`/email`: it replaces the path of the base URL, and fails exactly on
cannot-be-a-base URLs. -/
def Url.join (u : Url) (p : List Char) : Option Url :=
  if u.cannotBeABase then none else some { u with path := p }

/-- An outbound HTTP request as assembled by the client: method, target URL,
the transport timeout the client was built with, the header list, and the
serialized JSON object body (field name, field value). -/
structure HttpRequest where
  method : List Char
  url : Url
  timeout : Nat
  headers : List (List Char × List Char)
  jsonBody : List (List Char × List Char)
deriving DecidableEq

/-- Uppercase the first character of a word (serde word capitalization,
ASCII as in the Rust field identifiers). -/
def capitalizeSegment : List Char → List Char
  | [] => []
  | c :: cs => c.toUpper :: cs

/-- serde `rename_all = "PascalCase"`: split the snake_case field identifier
on underscores, capitalize each word, drop the underscores. -/
def pascalCase (s : List Char) : List Char :=
  ((s.splitOn '_').map capitalizeSegment).flatten

/-- The request body struct `SendEmailRequest` (src/email_client.rs lines
14-22). The Rust fields `from` and `to` are Lean keywords, hence `from_`
and `to_` here; the serialized keys are computed from the Rust
identifiers. -/
structure SendEmailRequest where
  from_ : List Char
  to_ : List Char
  subject : List Char
  html_body : List Char
  text_body : List Char
deriving DecidableEq

/-- serde serialization of `SendEmailRequest` under
`#[serde(rename_all = "PascalCase")]`: one JSON member per field, in
declaration order, keys renamed from the Rust identifiers. -/
def SendEmailRequest.serialize (r : SendEmailRequest) :
    List (List Char × List Char) :=
  [(pascalCase (("from").toList), r.from_),
   (pascalCase (("to").toList), r.to_),
   (pascalCase (("subject").toList), r.subject),
   (pascalCase (("html_body").toList), r.html_body),
   (pascalCase (("text_body").toList), r.text_body)]

/-- The transport configuration of the `reqwest::Client` built in
`EmailClient::new`: the only setting applied is the timeout
(milliseconds). -/
structure HttpClientModel where
  timeout : Nat
deriving DecidableEq

/-- The `EmailClient` struct (src/email_client.rs lines 7-12). -/
structure EmailClient where
  http_client : HttpClientModel
  base_url : List Char
  sender : SubscriberEmail
  authorization_token : Secret

/-- Model of `EmailClient::new` (src/email_client.rs lines 25-37): builds
the transport once with the given timeout and stores the remaining fields
unchanged. -/
def EmailClient.new (base_url : List Char) (sender : SubscriberEmail)
    (authorization_token : Secret) (timeout : Nat) : EmailClient :=
  { http_client := { timeout := timeout }, base_url := base_url,
    sender := sender, authorization_token := authorization_token }

/-- Errors of one outbound exchange (`reqwest::Error`): the timeout kind,
or any other transport-layer failure (DNS, connect, TLS, read) tagged with
its kind. -/
inductive DeliveryError where
  | Timeout
  | Transport (kind : List Char)
deriving DecidableEq

/-- A provider HTTP response; only the status code matters to the model,
since the client reads nothing else. -/
structure ProviderResponse where
  status : Nat
deriving DecidableEq

/-- One possible behaviour of the provider and the network for a single
exchange: how long the exchange takes, whether the transport fails for a
non-timeout reason, and what response arrives otherwise. -/
structure Provider where
  delay : Nat
  transportFailure : Option DeliveryError
  respond : HttpRequest → ProviderResponse

/-- Semantics of one exchange through the `reqwest` transport: if the
provider does not complete within the request's timeout the exchange fails
with the timeout error; otherwise any transport failure is surfaced; and
otherwise the response is returned whatever its status code. -/
def execRequest (p : Provider) (req : HttpRequest) :
    Except DeliveryError ProviderResponse :=
  if req.timeout < p.delay then
    Except.error DeliveryError.Timeout
  else
    match p.transportFailure with
    | some e => Except.error e
    | none => Except.ok (p.respond req)

/-- The request assembled by `EmailClient::send_email` (src/email_client.rs
lines 46-66) before it is sent: parse `base_url` (`expect` on failure —
modelled as `none`), join `/email` (likewise), then build the POST with the
token header, the JSON content type, and the serialized body whose `From`
is the configured sender and `To` the given recipient. `parseUrl` abstracts
`reqwest::Url::parse` from the external `url` crate. -/
def EmailClient.buildRequest (parseUrl : List Char → Option Url)
    (c : EmailClient) (recipient : SubscriberEmail)
    (subject html_content text_content : List Char) : Option HttpRequest :=
  match parseUrl c.base_url with
  | none => none
  | some base =>
    match base.join (("/email").toList) with
    | none => none
    | some url =>
        some { method := ("POST").toList
               url := url
               timeout := c.http_client.timeout
               headers := [(SERVER_TOKEN_HEADER_KEY,
                            c.authorization_token.expose_secret),
                           (("Content-Type").toList,
                            ("application/json").toList)]
               jsonBody := SendEmailRequest.serialize
                 { from_ := c.sender.as_ref, to_ := recipient.as_ref,
                   subject := subject, html_body := html_content,
                   text_body := text_content } }

/-- Model of `EmailClient::send_email` (src/email_client.rs lines 39-71):
build the request (`none` models the `expect` panic on an unparsable base
URL), perform exactly one exchange, propagate its transport error through
`?`, and discard the response otherwise. The second component records the
outbound requests attempted by the call. -/
def EmailClient.send_email (parseUrl : List Char → Option Url) (p : Provider)
    (c : EmailClient) (recipient : SubscriberEmail)
    (subject html_content text_content : List Char) :
    Option (Except DeliveryError Unit × List HttpRequest) :=
  match EmailClient.buildRequest parseUrl c recipient subject html_content
      text_content with
  | none => none
  | some req =>
      match execRequest p req with
      | Except.error e => some (Except.error e, [req])
      | Except.ok _ => some (Except.ok (), [req])

/-- Concrete URL parser standing in for the `url` crate, defined on the one
base URL the demo client uses; used only to exercise the client theorems at
concrete inputs. -/
def parseUrlDemo (s : List Char) : Option Url :=
  if s = ("http://localhost").toList then
    some { scheme := ("http").toList, host := ("localhost").toList,
           path := ("/").toList, cannotBeABase := false }
  else
    none

/-- A concrete client instance for exercising the theorems. -/
def demoClient : EmailClient :=
  EmailClient.new (("http://localhost").toList) ⟨("from@x").toList⟩
    ⟨("token123").toList⟩ 200

/-- A provider that answers 200 immediately with no transport failure. -/
def demoProvider : Provider :=
  { delay := 0, transportFailure := none, respond := fun _ => { status := 200 } }

/-- A provider that takes 300 time units to answer, longer than the demo
client's 200 timeout. -/
def slowProvider : Provider :=
  { delay := 300, transportFailure := none, respond := fun _ => { status := 200 } }

/-- The request `demoClient` assembles for recipient `to@y` with subject
`s`, HTML body `h` and text body `t`. -/
def demoReq : HttpRequest :=
  { method := ("POST").toList
    url := { scheme := ("http").toList, host := ("localhost").toList,
             path := ("/email").toList, cannotBeABase := false }
    timeout := 200
    headers := [(SERVER_TOKEN_HEADER_KEY, ("token123").toList),
                (("Content-Type").toList, ("application/json").toList)]
    jsonBody := [(("From").toList, ("from@x").toList),
                 (("To").toList, ("to@y").toList),
                 (("Subject").toList, ("s").toList),
                 (("HtmlBody").toList, ("h").toList),
                 (("TextBody").toList, ("t").toList)] }

/-- C6: every request assembled by `send_email` is a POST to the `/email`
path of the parsed base URL, carries the `X-Postmark-Server-Token` header
with the revealed credential and the `application/json` content type, and
its JSON body has exactly the members `From`, `To`, `Subject`, `HtmlBody`,
`TextBody` in that casing, with `From` the configured sender and `To` the
given recipient. -/
theorem send_email_request_shape (pu : List Char → Option Url)
    (c : EmailClient) (r : SubscriberEmail) (s h t : List Char)
    (req : HttpRequest)
    (hreq : EmailClient.buildRequest pu c r s h t = some req) :
    req.method = ("POST").toList
    ∧ req.url.path = ("/email").toList
    ∧ (∀ base, pu c.base_url = some base →
        req.url.scheme = base.scheme ∧ req.url.host = base.host)
    ∧ req.headers = [(SERVER_TOKEN_HEADER_KEY,
                      c.authorization_token.expose_secret),
                     (("Content-Type").toList, ("application/json").toList)]
    ∧ req.jsonBody.map Prod.fst =
        [("From").toList, ("To").toList, ("Subject").toList,
         ("HtmlBody").toList, ("TextBody").toList]
    ∧ req.jsonBody.lookup (("From").toList) = some c.sender.as_ref
    ∧ req.jsonBody.lookup (("To").toList) = some r.as_ref := by
  cases hpu : pu c.base_url with
  | none =>
      simp [EmailClient.buildRequest, hpu] at hreq
  | some base =>
      cases hcb : base.cannotBeABase with
      | true =>
          simp [EmailClient.buildRequest, hpu, Url.join, hcb] at hreq
      | false =>
          simp only [EmailClient.buildRequest, hpu, Url.join, hcb,
            Bool.false_eq_true, if_false, Option.some.injEq] at hreq
          subst hreq
          refine ⟨rfl, rfl, ?_, rfl, ?_, ?_, ?_⟩
          · intro base' hb
            injection hb with hb'
            subst hb'
            exact ⟨rfl, rfl⟩
          · simp only [SendEmailRequest.serialize, List.map]
            decide
          · simp only [SendEmailRequest.serialize, List.lookup]
            rw [show ((("From").toList == pascalCase (("from").toList)) = true)
              from by decide]
          · simp only [SendEmailRequest.serialize, List.lookup]
            rw [show ((("To").toList == pascalCase (("from").toList)) = false)
              from by decide]
            rw [show ((("To").toList == pascalCase (("to").toList)) = true)
              from by decide]

/-- Witness for C6: the demo client's assembled request is `demoReq`, a
POST to `/email` whose body keys are exactly the five PascalCase names. -/
theorem send_email_request_shape_witness :
    demoReq.method = ("POST").toList
    ∧ demoReq.jsonBody.map Prod.fst =
        [("From").toList, ("To").toList, ("Subject").toList,
         ("HtmlBody").toList, ("TextBody").toList] :=
  ⟨(send_email_request_shape parseUrlDemo demoClient ⟨("to@y").toList⟩
      (("s").toList) (("h").toList) (("t").toList) demoReq (by decide)).1,
   (send_email_request_shape parseUrlDemo demoClient ⟨("to@y").toList⟩
      (("s").toList) (("h").toList) (("t").toList) demoReq (by decide)).2.2.2.2.1⟩

/-- C7: once the request is assembled, `send_email` performs exactly one
exchange and returns its outcome mapped to unit: success exactly when the
transport exchange completes without error — whatever the provider's status
code, which is never inspected — and every transport failure is returned
unchanged as the delivery error; the attempted-request trace is the
singleton of the one assembled request, with no retry. -/
theorem send_email_transport_spec (pu : List Char → Option Url) (p : Provider)
    (c : EmailClient) (r : SubscriberEmail) (s h t : List Char)
    (req : HttpRequest)
    (hreq : EmailClient.buildRequest pu c r s h t = some req) :
    (EmailClient.send_email pu p c r s h t =
      some (Except.map (fun _ => ()) (execRequest p req), [req]))
    ∧ (∀ resp, execRequest p req = Except.ok resp →
        EmailClient.send_email pu p c r s h t = some (Except.ok (), [req]))
    ∧ (∀ e, execRequest p req = Except.error e →
        EmailClient.send_email pu p c r s h t = some (Except.error e, [req])) := by
  cases hx : execRequest p req with
  | ok resp =>
      refine ⟨?_, ?_, ?_⟩
      · simp [EmailClient.send_email, hreq, hx, Except.map]
      · intro resp' hr
        simp [EmailClient.send_email, hreq, hx]
      · intro e hr
        exact Except.noConfusion hr
  | error e =>
      refine ⟨?_, ?_, ?_⟩
      · simp [EmailClient.send_email, hreq, hx, Except.map]
      · intro resp hr
        exact Except.noConfusion hr
      · intro e' hr
        injection hr with hr'
        subst hr'
        simp [EmailClient.send_email, hreq, hx]

/-- Witness for C7: against a provider that answers 200 immediately, the
demo client's call succeeds with exactly one attempted request. -/
theorem send_email_transport_spec_witness :
    EmailClient.send_email parseUrlDemo demoProvider demoClient
      ⟨("to@y").toList⟩ (("s").toList) (("h").toList) (("t").toList) =
      some (Except.ok (), [demoReq]) :=
  (send_email_transport_spec parseUrlDemo demoProvider demoClient
    ⟨("to@y").toList⟩ (("s").toList) (("h").toList) (("t").toList) demoReq
    (by decide)).2.1 { status := 200 } rfl

/-- C8: the timeout given to `EmailClient::new` is stored in the transport
at construction; every request the instance assembles carries exactly that
timeout (the call has no per-call override), and whenever the provider
takes longer than it, the call fails with the timeout error variant. -/
theorem email_client_timeout_spec (pu : List Char → Option Url) (p : Provider)
    (base : List Char) (sender : SubscriberEmail) (tok : Secret)
    (timeout : Nat) (r : SubscriberEmail) (s h t : List Char) :
    (EmailClient.new base sender tok timeout).http_client.timeout = timeout
    ∧ (∀ req,
        EmailClient.buildRequest pu (EmailClient.new base sender tok timeout)
          r s h t = some req →
        req.timeout = timeout
        ∧ (timeout < p.delay →
            EmailClient.send_email pu p (EmailClient.new base sender tok timeout)
              r s h t = some (Except.error DeliveryError.Timeout, [req]))) := by
  refine ⟨rfl, ?_⟩
  intro req hreq
  have ht : req.timeout = timeout := by
    cases hpu : pu (EmailClient.new base sender tok timeout).base_url with
    | none => simp [EmailClient.buildRequest, hpu] at hreq
    | some b =>
        cases hcb : b.cannotBeABase with
        | true => simp [EmailClient.buildRequest, hpu, Url.join, hcb] at hreq
        | false =>
            simp only [EmailClient.buildRequest, hpu, Url.join, hcb,
              Bool.false_eq_true, if_false, Option.some.injEq] at hreq
            subst hreq
            rfl
  refine ⟨ht, ?_⟩
  intro hd
  have hexec : execRequest p req = Except.error DeliveryError.Timeout := by
    unfold execRequest
    rw [if_pos (show req.timeout < p.delay from by rw [ht]; exact hd)]
  simp [EmailClient.send_email, hreq, hexec]

/-- Witness for C8: against a provider slower (300) than the demo client's
configured timeout (200), the call fails with the timeout error. -/
theorem email_client_timeout_spec_witness :
    EmailClient.send_email parseUrlDemo slowProvider demoClient
      ⟨("to@y").toList⟩ (("s").toList) (("h").toList) (("t").toList) =
      some (Except.error DeliveryError.Timeout, [demoReq]) :=
  ((email_client_timeout_spec parseUrlDemo slowProvider
      (("http://localhost").toList) ⟨("from@x").toList⟩ ⟨("token123").toList⟩
      200 ⟨("to@y").toList⟩ (("s").toList) (("h").toList) (("t").toList)).2
    demoReq (by decide)).2 (by decide)

/-- Remove the token header from a request, for comparing what the rest of
the request can depend on. -/
def stripTokenHeader (req : HttpRequest) : HttpRequest :=
  { req with headers :=
      req.headers.filter (fun kv => kv.1 != SERVER_TOKEN_HEADER_KEY) }

/-- C9: the credential wrapper's textual form is one fixed redacted text
regardless of the wrapped value; outside the `X-Postmark-Server-Token`
header, the assembled request is identical for any two tokens (so the token
influences nothing else — URL, method, body, other headers); and that
header holds exactly the value of the explicit reveal accessor. -/
theorem token_capability_spec (pu : List Char → Option Url) (base : List Char)
    (sender : SubscriberEmail) (t1 t2 : Secret) (timeout : Nat)
    (r : SubscriberEmail) (s h txt : List Char) :
    Secret.redactedDebug t1 = Secret.redactedDebug t2
    ∧ Option.map stripTokenHeader
        (EmailClient.buildRequest pu (EmailClient.new base sender t1 timeout)
          r s h txt)
      = Option.map stripTokenHeader
        (EmailClient.buildRequest pu (EmailClient.new base sender t2 timeout)
          r s h txt)
    ∧ (∀ req,
        EmailClient.buildRequest pu (EmailClient.new base sender t1 timeout)
          r s h txt = some req →
        req.headers.lookup SERVER_TOKEN_HEADER_KEY = some (t1.expose_secret)) := by
  refine ⟨rfl, ?_, ?_⟩
  · dsimp only [EmailClient.buildRequest, EmailClient.new]
    cases hpu : pu base with
    | none => rfl
    | some b =>
        dsimp only [Url.join]
        cases hcb : b.cannotBeABase with
        | true => rfl
        | false =>
            simp only [Bool.false_eq_true, if_false, Option.map_some]
            simp [stripTokenHeader,
              show (SERVER_TOKEN_HEADER_KEY != SERVER_TOKEN_HEADER_KEY) = false
                from by decide,
              show ((("Content-Type").toList != SERVER_TOKEN_HEADER_KEY) = true)
                from by decide]
  · intro req hreq
    cases hpu : pu (EmailClient.new base sender t1 timeout).base_url with
    | none => simp [EmailClient.buildRequest, hpu] at hreq
    | some b =>
        cases hcb : b.cannotBeABase with
        | true => simp [EmailClient.buildRequest, hpu, Url.join, hcb] at hreq
        | false =>
            simp only [EmailClient.buildRequest, hpu, Url.join, hcb,
              Bool.false_eq_true, if_false, Option.some.injEq] at hreq
            subst hreq
            simp only [List.lookup,
              show (SERVER_TOKEN_HEADER_KEY == SERVER_TOKEN_HEADER_KEY) = true
                from by decide]
            rfl

/-- Witness for C9: the demo client's assembled request carries the
revealed demo token in the token header. -/
theorem token_capability_spec_witness :
    demoReq.headers.lookup SERVER_TOKEN_HEADER_KEY = some (("token123").toList) :=
  (token_capability_spec parseUrlDemo (("http://localhost").toList)
    ⟨("from@x").toList⟩ ⟨("token123").toList⟩ ⟨("other").toList⟩ 200
    ⟨("to@y").toList⟩ (("s").toList) (("h").toList) (("t").toList)).2.2
    demoReq (by decide)

/-- C10: `send_email` reaches the `expect` panic (modelled as `none`)
exactly when the stored base URL does not parse as an absolute URL or the
parsed URL cannot be joined with `/email`; under the precondition that the
base URL parses to a joinable (not cannot-be-a-base) URL, the call is
panic-free for every provider behaviour. -/
theorem send_email_panic_spec (pu : List Char → Option Url) (p : Provider)
    (c : EmailClient) (r : SubscriberEmail) (s h t : List Char) :
    (EmailClient.send_email pu p c r s h t = none ↔
      (pu c.base_url = none ∨
        ∃ base, pu c.base_url = some base ∧ base.cannotBeABase = true))
    ∧ (∀ base, pu c.base_url = some base → base.cannotBeABase = false →
        (EmailClient.send_email pu p c r s h t).isSome = true) := by
  cases hpu : pu c.base_url with
  | none =>
      refine ⟨⟨fun _ => Or.inl rfl, fun _ => ?_⟩, fun base hb _ => ?_⟩
      · simp [EmailClient.send_email, EmailClient.buildRequest, hpu]
      · exact Option.noConfusion hb
  | some base =>
      cases hcb : base.cannotBeABase with
      | true =>
          refine ⟨⟨fun _ => Or.inr ⟨base, rfl, hcb⟩, fun _ => ?_⟩,
            fun base' hb hcb' => ?_⟩
          · simp [EmailClient.send_email, EmailClient.buildRequest, hpu,
              Url.join, hcb]
          · injection hb with hbb
            subst hbb
            rw [hcb] at hcb'
            exact Bool.noConfusion hcb'
      | false =>
          obtain ⟨req0, hbr⟩ : ∃ q, EmailClient.buildRequest pu c r s h t = some q :=
            ⟨{ method := ("POST").toList,
               url := { scheme := base.scheme, host := base.host,
                        path := ("/email").toList, cannotBeABase := false },
               timeout := c.http_client.timeout,
               headers := [(SERVER_TOKEN_HEADER_KEY,
                            c.authorization_token.expose_secret),
                           (("Content-Type").toList,
                            ("application/json").toList)],
               jsonBody := SendEmailRequest.serialize
                 { from_ := c.sender.as_ref, to_ := r.as_ref,
                   subject := s, html_body := h, text_body := t } },
             by simp [EmailClient.buildRequest, hpu, Url.join, hcb]⟩
          refine ⟨⟨fun hnone => ?_, fun hrhs => ?_⟩, fun base' hb hcb' => ?_⟩
          · exfalso
            cases hex : execRequest p req0 with
            | ok resp => simp [EmailClient.send_email, hbr, hex] at hnone
            | error e => simp [EmailClient.send_email, hbr, hex] at hnone
          · exfalso
            rcases hrhs with hl | ⟨b', hb', hcb'⟩
            · exact Option.noConfusion hl
            · injection hb' with hbb
              subst hbb
              rw [hcb] at hcb'
              exact Bool.noConfusion hcb'
          · cases hex : execRequest p req0 with
            | ok resp => simp [EmailClient.send_email, hbr, hex]
            | error e => simp [EmailClient.send_email, hbr, hex]

/-- Witness for C10: the demo client's base URL parses to a joinable URL,
so its call does not panic. -/
theorem send_email_panic_spec_witness :
    (EmailClient.send_email parseUrlDemo demoProvider demoClient
      ⟨("to@y").toList⟩ (("s").toList) (("h").toList) (("t").toList)).isSome
      = true :=
  (send_email_panic_spec parseUrlDemo demoProvider demoClient
    ⟨("to@y").toList⟩ (("s").toList) (("h").toList) (("t").toList)).2
    { scheme := ("http").toList, host := ("localhost").toList,
      path := ("/").toList, cannotBeABase := false }
    (by decide) rfl
